import Mathlib

/-!
# Verification of `kbncontent` (Kibana content analysis, Go)

Shallow embedding of `kbncontent.go` (the final `objx`-based implementation):
documents are modelled as JSON values (`JVal`), Go `nil` interface values are
modelled as `Option.none`, and the `objx` path operations (`Get`, `Set`,
`IsStr`, `Has`, `IsObjxMapSlice`) as well as the relevant slices of
`encoding/json` (`objx.FromJSON`, `objx.FromJSONSlice`, `mapstructure.Decode`)
are embedded as executable Lean functions.
-/

/-- Decidable equality for `Except` (not provided by core), used to evaluate
the embedded functions on concrete documents. -/
instance {ε α : Type} [DecidableEq ε] [DecidableEq α] : DecidableEq (Except ε α) := fun
  | .error e, .error e' =>
    if h : e = e' then .isTrue (by rw [h]) else .isFalse (by simp [h])
  | .error _, .ok _ => .isFalse (by simp)
  | .ok _, .error _ => .isFalse (by simp)
  | .ok a, .ok a' =>
    if h : a = a' then .isTrue (by rw [h]) else .isFalse (by simp [h])

namespace Kbncontent

/-- A JSON value, as produced by Go's `encoding/json` unmarshalling into
`interface\x7b\x7d`.  Numbers keep their literal text (no claim in this
development depends on numeric equality of distinct literals).  Objects are
association lists with unique keys (Go maps; the JSON parser below resolves
duplicate keys with last-one-wins, as `encoding/json` does). -/
inductive JVal : Type where
  | null : JVal
  | bool (b : Bool) : JVal
  | num (lit : String) : JVal
  | str (s : String) : JVal
  | arr (elems : List JVal) : JVal
  | obj (fields : List (String × JVal)) : JVal

mutual

/-- Boolean equality on JSON values (structural). -/
def JVal.beq : JVal → JVal → Bool
  | .null, .null => true
  | .bool a, .bool b => a == b
  | .num a, .num b => a == b
  | .str a, .str b => a == b
  | .arr xs, .arr ys => JVal.beqList xs ys
  | .obj fs, .obj gs => JVal.beqFields fs gs
  | _, _ => false

/-- Boolean equality on lists of JSON values. -/
def JVal.beqList : List JVal → List JVal → Bool
  | [], [] => true
  | x :: xs, y :: ys => JVal.beq x y && JVal.beqList xs ys
  | _, _ => false

/-- Boolean equality on object field lists. -/
def JVal.beqFields : List (String × JVal) → List (String × JVal) → Bool
  | [], [] => true
  | (k, v) :: fs, (k', v') :: gs => k == k' && JVal.beq v v' && JVal.beqFields fs gs
  | _, _ => false

end

mutual

theorem JVal.beq_iff : ∀ a b : JVal, JVal.beq a b = true ↔ a = b
  | .null, b => by cases b <;> simp [JVal.beq]
  | .bool a, b => by cases b <;> simp [JVal.beq]
  | .num a, b => by cases b <;> simp [JVal.beq]
  | .str a, b => by cases b <;> simp [JVal.beq]
  | .arr xs, b => by
    cases b <;> simp [JVal.beq]
    exact JVal.beqList_iff xs _
  | .obj fs, b => by
    cases b <;> simp [JVal.beq]
    exact JVal.beqFields_iff fs _

theorem JVal.beqList_iff : ∀ xs ys : List JVal, JVal.beqList xs ys = true ↔ xs = ys
  | [], ys => by cases ys <;> simp [JVal.beqList]
  | x :: xs, ys => by
    cases ys with
    | nil => simp [JVal.beqList]
    | cons y ys =>
      simp only [JVal.beqList, Bool.and_eq_true, List.cons.injEq]
      exact and_congr (JVal.beq_iff x y) (JVal.beqList_iff xs ys)

theorem JVal.beqFields_iff :
    ∀ fs gs : List (String × JVal), JVal.beqFields fs gs = true ↔ fs = gs
  | [], gs => by cases gs <;> simp [JVal.beqFields]
  | (k, v) :: fs, gs => by
    cases gs with
    | nil => simp [JVal.beqFields]
    | cons g gs =>
      obtain ⟨k', v'⟩ := g
      simp only [JVal.beqFields, Bool.and_eq_true, List.cons.injEq, beq_iff_eq,
        Prod.mk.injEq]
      exact and_congr (and_congr Iff.rfl (JVal.beq_iff v v'))
        (JVal.beqFields_iff fs gs)

end

instance : DecidableEq JVal := fun a b => decidable_of_iff _ (JVal.beq_iff a b)

/-- A JSON object body: the Go `map[string]interface\x7b\x7d` / `objx.Map`. -/
abbrev JObj : Type := List (String × JVal)

/-- Key lookup in an object (Go map indexing). -/
def lookupField : JObj → String → Option JVal
  | [], _ => none
  | (k, v) :: fs, key => if k = key then some v else lookupField fs key

/-- Go map indexing `m[key]`: a JSON `null` stored at the key is the Go `nil`
interface value, indistinguishable from an absent key. -/
def goIndex (fs : JObj) (key : String) : Option JVal :=
  match lookupField fs key with
  | some .null => none
  | r => r

/-- Split a selector's characters on `.`, accumulating the current segment in
reverse. -/
def splitSelectorChars : List Char → List Char → List String
  | [], acc => [String.mk acc.reverse]
  | c :: cs, acc =>
    if c = '.' then String.mk acc.reverse :: splitSelectorChars cs []
    else splitSelectorChars cs (c :: acc)

/-- The `objx` selector parsing: our selectors contain no array-index brackets, so
`objx` splits them on `.`. -/
def parseSelector (s : String) : List String :=
  splitSelectorChars s.toList []

/-- Traversal part of `objx.Map.Get`: walk nested objects along the selector
segments; `none` is the Go `nil` result (absent key or non-map intermediate). -/
def jGet : JVal → List String → Option JVal
  | v, [] => some v
  | .obj fs, k :: ks =>
    match lookupField fs k with
    | some v => jGet v ks
    | none => none
  | _, _ :: _ => none

/-- The `objx.Map.Get` result as a Go value: JSON `null` unmarshals to the Go `nil`
interface, so a path resolving to `null` yields `nil` (here `none`). -/
def goGet (v : JVal) (path : List String) : Option JVal :=
  match jGet v path with
  | some .null => none
  | r => r

/-- The `objx.Value.IsStr` on the result of a `Get`. -/
def valueIsStr : Option JVal → Bool
  | some (.str _) => true
  | _ => false

/-- The `objx.Value.Str` on the result of a `Get` (empty string when not a string,
matching objx's zero default). -/
def valueStr : Option JVal → String
  | some (.str s) => s
  | _ => ""

/-- The `objx.Map.Has(selector)`: the selector resolves to a non-nil value. -/
def jHas (fs : JObj) (path : List String) : Bool :=
  (goGet (.obj fs) path).isSome

/-- Replace the value at a key, keeping position; append if absent
(Go map assignment, with the deterministic order of our list model). -/
def setKey : JObj → String → JVal → JObj
  | [], key, v => [(key, v)]
  | (k, w) :: fs, key, v =>
    if k = key then (k, v) :: fs else (k, w) :: setKey fs key v

/-- The `objx.Map.Set(selector, value)`: walk the selector, creating (or replacing
non-map intermediates with) fresh empty objects, and assign at the leaf. -/
def objSet : JObj → List String → JVal → JObj
  | fs, [], _ => fs
  | fs, [k], v => setKey fs k v
  | fs, k :: k' :: ks, v =>
    match lookupField fs k with
    | some (.obj inner) => setKey fs k (.obj (objSet inner (k' :: ks) v))
    | _ => setKey fs k (.obj (objSet [] (k' :: ks) v))

/-! ## JSON text parsing (`encoding/json` via `objx.FromJSON` / `objx.FromJSONSlice`)

The repository treats JSON text decoding as an external collaborator
(`encoding/json`).  We embed it as an executable recursive-descent parser for
the JSON grammar: values are objects, arrays, strings (with the standard
escapes), numbers (kept as literals), `true`, `false`, `null`; top-level and
inter-token whitespace is skipped and trailing garbage is rejected, as
`json.Unmarshal` does. -/

/-- JSON insignificant whitespace. -/
def isJSONWS (c : Char) : Bool :=
  c = ' ' || c = '\t' || c = '\n' || c = '\r'

/-- Drop leading JSON whitespace. -/
def skipWS : List Char → List Char
  | c :: cs => if isJSONWS c then skipWS cs else c :: cs
  | [] => []

/-- Value of a hexadecimal digit, if any. -/
def hexDigit (c : Char) : Option Nat :=
  if '0' ≤ c ∧ c ≤ '9' then some (c.toNat - '0'.toNat)
  else if 'a' ≤ c ∧ c ≤ 'f' then some (c.toNat - 'a'.toNat + 10)
  else if 'A' ≤ c ∧ c ≤ 'F' then some (c.toNat - 'A'.toNat + 10)
  else none

/-- Decode the body of a JSON string literal (the opening quote already
consumed), returning the decoded characters and the remaining input.  Handles
the standard single-character escapes and `\uXXXX`; rejects raw control
characters and invalid escapes, as `encoding/json` does. -/
def parseStringChars : Nat → List Char → Option (List Char × List Char)
  | 0, _ => none
  | _, [] => none
  | fuel + 1, c :: cs =>
    if c = '"' then some ([], cs)
    else if c = '\\' then
      match cs with
      | [] => none
      | e :: cs' =>
        let simple : Option Char :=
          if e = '"' then some '"'
          else if e = '\\' then some '\\'
          else if e = '/' then some '/'
          else if e = 'b' then some (Char.ofNat 8)
          else if e = 'f' then some (Char.ofNat 12)
          else if e = 'n' then some '\n'
          else if e = 'r' then some '\r'
          else if e = 't' then some '\t'
          else none
        match simple with
        | some d =>
          match parseStringChars fuel cs' with
          | some (tail, rest) => some (d :: tail, rest)
          | none => none
        | none =>
          if e = 'u' then
            match cs' with
            | a :: b :: c2 :: d :: cs'' =>
              match hexDigit a, hexDigit b, hexDigit c2, hexDigit d with
              | some ha, some hb, some hc, some hd =>
                let n := ((ha * 16 + hb) * 16 + hc) * 16 + hd
                match parseStringChars fuel cs'' with
                | some (tail, rest) => some (Char.ofNat n :: tail, rest)
                | none => none
              | _, _, _, _ => none
            | _ => none
          else none
    else if c.toNat < 32 then none
    else
      match parseStringChars fuel cs with
      | some (tail, rest) => some (c :: tail, rest)
      | none => none

/-- Longest prefix of decimal digits. -/
def takeDigits : List Char → List Char × List Char
  | [] => ([], [])
  | c :: cs =>
    if c.isDigit then
      let (ds, rest) := takeDigits cs
      (c :: ds, rest)
    else ([], c :: cs)

/-- Lex the optional fraction part of a JSON number (`.` must be followed by
at least one digit, else the literal is malformed). -/
def parseFrac : List Char → Option (List Char × List Char)
  | '.' :: rest =>
    match takeDigits rest with
    | ([], _) => none
    | (ds, rest') => some ('.' :: ds, rest')
  | cs => some ([], cs)

/-- Lex the optional exponent part of a JSON number. -/
def parseExp : List Char → Option (List Char × List Char)
  | e :: rest =>
    if e = 'e' ∨ e = 'E' then
      let (sign, rest1) :=
        match rest with
        | s :: rest' => if s = '+' ∨ s = '-' then ([s], rest') else (([] : List Char), rest)
        | [] => ([], rest)
      match takeDigits rest1 with
      | ([], _) => none
      | (ds, rest2) => some (e :: (sign ++ ds), rest2)
    else some ([], e :: rest)
  | [] => some ([], [])

/-- Lex a JSON number literal (grammar `-? (0 | [1-9][0-9]*) frac? exp?`),
returning the literal text and the remaining input. -/
def parseNumber (cs : List Char) : Option (String × List Char) :=
  let (neg, cs1) :=
    match cs with
    | '-' :: rest => (['-'], rest)
    | _ => (([] : List Char), cs)
  match takeDigits cs1 with
  | ([], _) => none
  | (intPart, cs2) =>
    if intPart.length > 1 ∧ intPart.headD 'x' = '0' then none
    else
      match parseFrac cs2 with
      | none => none
      | some (fracPart, cs3) =>
        match parseExp cs3 with
        | none => none
        | some (expPart, cs4) =>
          some (String.mk (neg ++ intPart ++ fracPart ++ expPart), cs4)

/-- Build a JSON object body from parsed key/value pairs: later duplicate keys
overwrite earlier ones, as `encoding/json` map decoding does. -/
def mkObj (fs : List (String × JVal)) : JObj :=
  fs.foldl (fun acc kv => setKey acc kv.1 kv.2) []

/-- Check that the input starts with the given characters; return the rest. -/
def expectChars : List Char → List Char → Option (List Char)
  | [], cs => some cs
  | e :: es, c :: cs => if c = e then expectChars es cs else none
  | _ :: _, [] => none

mutual

/-- Parse one JSON value (leading whitespace allowed). -/
def parseVal : Nat → List Char → Option (JVal × List Char)
  | 0, _ => none
  | fuel + 1, cs =>
    match skipWS cs with
    | [] => none
    | c :: rest =>
      if c = '"' then
        match parseStringChars (rest.length + 1) rest with
        | some (chars, rest') => some (.str (String.mk chars), rest')
        | none => none
      else if c = 't' then
        match expectChars ['r', 'u', 'e'] rest with
        | some rest' => some (.bool true, rest')
        | none => none
      else if c = 'f' then
        match expectChars ['a', 'l', 's', 'e'] rest with
        | some rest' => some (.bool false, rest')
        | none => none
      else if c = 'n' then
        match expectChars ['u', 'l', 'l'] rest with
        | some rest' => some (.null, rest')
        | none => none
      else if c = '[' then
        match skipWS rest with
        | ']' :: rest' => some (.arr [], rest')
        | rest' => parseArrTail fuel rest' []
      else if c = '{' then
        match skipWS rest with
        | '}' :: rest' => some (.obj [], rest')
        | rest' => parseObjTail fuel rest' []
      else
        match parseNumber (c :: rest) with
        | some (lit, rest') => some (.num lit, rest')
        | none => none

/-- Parse the elements of a non-empty JSON array, accumulating in reverse. -/
def parseArrTail : Nat → List Char → List JVal → Option (JVal × List Char)
  | 0, _, _ => none
  | fuel + 1, cs, acc =>
    match parseVal fuel cs with
    | none => none
    | some (v, rest) =>
      match skipWS rest with
      | ',' :: rest' => parseArrTail fuel rest' (v :: acc)
      | ']' :: rest' => some (.arr (v :: acc).reverse, rest')
      | _ => none

/-- Parse the members of a non-empty JSON object, accumulating in reverse. -/
def parseObjTail : Nat → List Char → List (String × JVal) → Option (JVal × List Char)
  | 0, _, _ => none
  | fuel + 1, cs, acc =>
    match skipWS cs with
    | '"' :: rest =>
      match parseStringChars (rest.length + 1) rest with
      | none => none
      | some (keyChars, rest1) =>
        match skipWS rest1 with
        | ':' :: rest2 =>
          match parseVal fuel rest2 with
          | none => none
          | some (v, rest3) =>
            match skipWS rest3 with
            | ',' :: rest4 => parseObjTail fuel rest4 ((String.mk keyChars, v) :: acc)
            | '\x7d' :: rest4 =>
              some (.obj (mkObj (((String.mk keyChars, v) :: acc).reverse)), rest4)
            | _ => none
        | _ => none
    | _ => none

end

/-- The `json.Unmarshal` of a whole input into `interface\x7b\x7d`: one JSON value
with optional surrounding whitespace and nothing after it. -/
def parseJSON (s : String) : Option JVal :=
  match parseVal (s.length * 2 + 4) s.toList with
  | some (v, rest) => if skipWS rest = [] then some v else none
  | none => none

/-- The `objx.FromJSON`: `json.Unmarshal` into `interface\x7b\x7d` followed by
`objx.New`, which returns the nil `Map` (observably an empty map under `Get`)
when the decoded data is not an object.  Errors exactly on invalid JSON
text. -/
def fromJSON (s : String) : Except String JObj :=
  match parseJSON s with
  | none => .error "invalid JSON text"
  | some (.obj fs) => .ok fs
  | some _ => .ok []

/-- Convert decoded array elements to `objx.Map`s the way `json.Unmarshal`
into `[]objx.Map` does: each element must be an object (or `null`, which
leaves the nil `Map`); anything else is a decoding error. -/
def elemsToMaps : List JVal → Option (List JObj)
  | [] => some []
  | .obj fs :: rest => (elemsToMaps rest).map (fs :: ·)
  | .null :: rest => (elemsToMaps rest).map ([] :: ·)
  | _ :: _ => none

/-- The `objx.FromJSONSlice`: `json.Unmarshal` into `[]objx.Map`; the top level
must be an array (or `null`, leaving the nil slice) of objects. -/
def fromJSONSlice (s : String) : Except String (List JObj) :=
  match parseJSON s with
  | none => .error "invalid JSON text"
  | some .null => .ok []
  | some (.arr xs) =>
    match elemsToMaps xs with
    | some ps => .ok ps
    | none => .error "cannot unmarshal array element into objx.Map"
  | some _ => .error "cannot unmarshal value into slice"

/-! ## `strings.Contains` -/

/-- The `pat` is a prefix of the second list. -/
def charsPrefix : List Char → List Char → Bool
  | [], _ => true
  | _ :: _, [] => false
  | a :: as, b :: bs => a = b && charsPrefix as bs

/-- The `pat` occurs as a contiguous run in the haystack. -/
def charsContains (pat : List Char) : List Char → Bool
  | [] => charsPrefix pat []
  | c :: t => charsPrefix pat (c :: t) || charsContains pat t

/-- The `strings.Contains(s, pat)`. -/
def strContains (s pat : String) : Bool :=
  charsContains pat.toList s.toList

/-! ## The descriptor and its accessors (`kbncontent.go`, final version) -/

/-- The `VisualizationDescriptor` describes a visualization: anything which can be
embedded in a dashboard. -/
structure VisualizationDescriptor : Type where
  Doc : JObj
  SavedObjectType : String
  Link : String
deriving DecidableEq

/-- The `findDocumentPathsAsString`: return the value of the first selector that
resolves to a string, the empty string when none does. -/
def VisualizationDescriptor.findDocumentPathsAsString
    (v : VisualizationDescriptor) : List String → String
  | [] => ""
  | p :: ps =>
    if valueIsStr (goGet (.obj v.Doc) (parseSelector p)) then
      valueStr (goGet (.obj v.Doc) (parseSelector p))
    else
      v.findDocumentPathsAsString ps

/-- The `Type` returns the root-level visualization type (named `Type'` because
`Type` is reserved in Lean). -/
def VisualizationDescriptor.Type' (v : VisualizationDescriptor) : String :=
  if v.SavedObjectType ≠ "visualization" then ""
  else
    v.findDocumentPathsAsString
      ["attributes.type",
       "attributes.visState.type",
       "embeddableConfig.savedVis.type"]

/-- The `Editor` returns the name of the visualization editor. -/
def VisualizationDescriptor.Editor (v : VisualizationDescriptor) :
    Except String String :=
  match v.SavedObjectType with
  | "lens" => .ok "Lens"
  | "map" => .ok "Maps"
  | "search" => .ok "Discover"
  | "visualization" =>
    match v.Type' with
    | "metrics" => .ok "TSVB"
    | "vega" => .ok "Vega"
    | "timelion" => .ok "Timelion"
    | _ => .ok "Aggs-based"
  | _ => .error "Unknown editor type"

/-- The `isTSVB`. -/
def VisualizationDescriptor.isTSVB (v : VisualizationDescriptor) : Bool :=
  v.Type' == "metrics"

/-- The `TSVBType` returns the TSVB sub type (gauge, markdown, etc). -/
def VisualizationDescriptor.TSVBType (v : VisualizationDescriptor) : String :=
  if !v.isTSVB then ""
  else
    v.findDocumentPathsAsString
      ["attributes.visState.params.type",
       "embeddableConfig.savedVis.params.type"]

/-- The `IsLegacy` returns whether the visualization is considered legacy. -/
def VisualizationDescriptor.IsLegacy (v : VisualizationDescriptor) : Bool :=
  if v.SavedObjectType ≠ "visualization" then false
  else if v.isTSVB then v.TSVBType != "markdown"
  else
    match v.Type' with
    | "markdown" => false
    | "vega" => false
    | "input_control_vis" => false
    | _ => true

/-- The `SemanticType`: a visualization-editor-agnostic name for what kind of
visualization this is. -/
def VisualizationDescriptor.SemanticType (v : VisualizationDescriptor) : String :=
  if v.isTSVB then v.TSVBType else v.Type'

/-- The `CanUseFilter` returns true if the visualization makes queries. -/
def VisualizationDescriptor.CanUseFilter (v : VisualizationDescriptor) : Bool :=
  match v.SavedObjectType with
  | "search" => false
  | "visualization" =>
    match v.Type' with
    | "markdown" => false
    | _ => true
  | _ => true

/-- The `Title` returns the visualization title. -/
def VisualizationDescriptor.Title (v : VisualizationDescriptor) : String :=
  if v.SavedObjectType ≠ "visualization" then ""
  else
    v.findDocumentPathsAsString
      ["attributes.title",
       "title",
       "embeddableConfig.savedVis.title"]

/-! ## Sub-document inflation -/

/-- The fixed sub-document fields of `deserializeSubPaths`. -/
def jsonPaths : List String :=
  ["attributes.uiStateJSON",
   "attributes.visState",
   "attributes.kibanaSavedObjectMeta.searchSourceJSON"]

/-- The error message built by `deserializeSubPaths` for a malformed field
(`fmt.Errorf("failed to decode embedded json in %q: %w", fieldName, err)`). -/
def decodeErrMsg (fieldName : String) : String :=
  "failed to decode embedded json in \"" ++ fieldName ++ "\""

/-- One step of `deserializeSubPaths`: Go's early `return err` is modelled by
the error-absorbing first branch; a field that is not a string is skipped; a
string field is decoded and written back in place. -/
def deserializeOne : Option String × JObj → String → Option String × JObj
  | (some e, d), _ => (some e, d)
  | (none, d), fieldName =>
    match goGet (.obj d) (parseSelector fieldName) with
    | some (.str s) =>
      match fromJSON s with
      | .error _ => (some (decodeErrMsg fieldName), d)
      | .ok parsed => (none, objSet d (parseSelector fieldName) (.obj parsed))
    | _ => (none, d)

/-- The `deserializeSubPaths`: inflate the known JSON-encoded sub-documents in
place.  The returned object is the state of the (mutated-in-place) document
when the Go function returns, on the error path as well. -/
def deserializeSubPaths (doc : JObj) : Option String × JObj :=
  jsonPaths.foldl deserializeOne (none, doc)

/-! ## Filter/query detection -/

/-- The `objx.Value.IsObjxMapSlice` (objx v0.5.1): the value is a slice whose
elements are all maps. -/
def valueIsObjxMapSlice : Option JVal → Bool
  | some (.arr xs) =>
    xs.all fun x =>
      match x with
      | .obj _ => true
      | _ => false
  | _ => false

/-- The `objx.Value.ObjxMapSlice` converted length (only consulted after
`IsObjxMapSlice`). -/
def valueObjxMapSliceLen : Option JVal → Nat
  | some (.arr xs) => xs.length
  | _ => 0

/-- The query-string candidate paths of `HasFilters`. -/
def queryPaths : List String :=
  ["attributes.kibanaSavedObjectMeta.searchSourceJSON.query.query",
   "attributes.state.query.query",
   "embeddableConfig.attributes.state.query.query",
   "embeddableConfig.savedVis.data.searchSource.query.query"]

/-- The filter-list candidate paths of `HasFilters`. -/
def filterPaths : List String :=
  ["attributes.state.filters",
   "embeddableConfig.attributes.state.filters",
   "embeddableConfig.savedVis.data.searchSource.filter",
   "attributes.kibanaSavedObjectMeta.searchSourceJSON.filter"]

/-- The first loop of `HasFilters`: some query path holds a non-empty
string (the loop returns at the first hit, i.e. iff some path hits). -/
def queryHit (d : JObj) : Bool :=
  queryPaths.any fun p =>
    let q := goGet (.obj d) (parseSelector p)
    valueIsStr q && valueStr q != ""

/-- The second loop of `HasFilters`: some filter path holds a non-empty slice
of maps. -/
def filterHit (d : JObj) : Bool :=
  filterPaths.any fun p =>
    let f := goGet (.obj d) (parseSelector p)
    valueIsObjxMapSlice f && valueObjxMapSliceLen f > 0

/-- The `HasFilters` returns true if the visualization has defined filters.  It
first re-runs `deserializeSubPaths` on the stored document (mutating it in
place); the second component is the document's state afterwards. -/
def VisualizationDescriptor.HasFilters (v : VisualizationDescriptor) :
    Except String Bool × JObj :=
  match deserializeSubPaths v.Doc with
  | (some e, d) => (.error e, d)
  | (none, d) =>
    if queryHit d then (.ok true, d)
    else if filterHit d then (.ok true, d)
    else (.ok false, d)

/-! ## Descriptor construction -/

/-- The `DescribeVisualizationSavedObject` reports information about a
visualization saved object (unmarshalled JSON). -/
def DescribeVisualizationSavedObject (doc : JObj) :
    Except String VisualizationDescriptor :=
  match deserializeSubPaths doc with
  | (some e, _) => .error ("failed to deserialize embedded JSON objects: " ++ e)
  | (none, d) =>
    match lookupField d "type" with
    | some (.str soType) =>
      .ok { Doc := d, SavedObjectType := soType, Link := "by_reference" }
    | _ => .error "`type` in visualization is not present or is not a string"

/-- Body of the panel loop of `DescribeByValueDashboardPanels`: a panel with
no string `type` is by-reference and skipped; otherwise the ported inclusion
checks decide whether a by-value descriptor is produced. -/
def describeOnePanel (panel : JObj) : Option VisualizationDescriptor :=
  match goGet (.obj panel) (parseSelector "type") with
  | some (.str panelType) =>
    let filterOut := true
    let filterOut :=
      if jHas panel (parseSelector "embeddableConfig.savedVis")
          && panelType == "visualization" then false
      else filterOut
    let filterOut :=
      if jHas panel (parseSelector "embeddableConfig.attributes")
          && (panelType == "lens" || panelType == "map") then false
      else filterOut
    if !filterOut then
      some { Doc := panel, SavedObjectType := panelType, Link := "by_value" }
    else none
  | _ => none

/-- The `objx.Value.ObjxMapSlice`: convert a slice of maps (only used after
`IsObjxMapSlice` holds, under which this is a bijective repackaging). -/
def valueObjxMapSlice : Option JVal → List JObj
  | some (.arr xs) =>
    xs.filterMap fun x =>
      match x with
      | .obj fs => some fs
      | _ => none
  | _ => []

/-- The `DescribeByValueDashboardPanels` reports information about the by-value
panels given dashboard state (unmarshalled JSON). -/
def DescribeByValueDashboardPanels (dashboard : JVal) :
    Except String (List VisualizationDescriptor) :=
  match dashboard with
  | .obj dm =>
    let panelsValue := goGet (.obj dm) (parseSelector "attributes.panelsJSON")
    match panelsValue with
    | some (.str s) =>
      match fromJSONSlice s with
      | .error e => .error ("failed to parse panels JSON: " ++ e)
      | .ok panels => .ok (panels.filterMap describeOnePanel)
    | _ =>
      if valueIsObjxMapSlice panelsValue then
        .ok ((valueObjxMapSlice panelsValue).filterMap describeOnePanel)
      else
        .error "panelsJSON is of unexpected type"
  | _ => .error "dashboard of unexpected type"

/-! ## Dashboard references -/

/-- Result of a Go function that can also panic (used for the unchecked type
assertion in `GetByReferencePanelIDs`). -/
inductive GoResult (α : Type) : Type where
  | ok (val : α) : GoResult α
  | err (msg : String) : GoResult α
  | panics : GoResult α
deriving DecidableEq

/-- The `Reference` is a dashboard reference (`ID, Type, Name string`; the `Type`
field is called `Type'` because `Type` is reserved in Lean). -/
structure Reference : Type where
  ID : String
  Type' : String
  Name : String
deriving DecidableEq

/-- Case-insensitive key lookup, the fallback `mapstructure` uses after an
exact match fails (Go map iteration order is unspecified; our list model picks
the first case-insensitive match). -/
def lookupCI : JObj → String → Option JVal
  | [], _ => none
  | (k, v) :: fs, key => if k.toLower = key.toLower then some v else lookupCI fs key

/-- The `mapstructure` field resolution: exact key first, then case-insensitive. -/
def lookupFieldFold (fs : JObj) (fieldName : String) : Option JVal :=
  match lookupField fs fieldName with
  | some v => some v
  | none => lookupCI fs fieldName

/-- Decode one string-typed struct field the way `mapstructure` does: an
absent key or a `null` value leaves the zero value; a non-string value is a
decoding error. -/
def decodeStringField (fs : JObj) (fieldName : String) : Except String String :=
  match lookupFieldFold fs fieldName with
  | none => .ok ""
  | some .null => .ok ""
  | some (.str s) => .ok s
  | some _ => .error ("cannot decode field " ++ fieldName)

/-- The `mapstructure.Decode(v, &ref)` for the `Reference` struct: the input must
be a map (or `nil`, which leaves the zero struct). -/
def decodeReference : JVal → Except String Reference
  | .null => .ok { ID := "", Type' := "", Name := "" }
  | .obj fs => do
    let i ← decodeStringField fs "ID"
    let t ← decodeStringField fs "Type"
    let n ← decodeStringField fs "Name"
    .ok { ID := i, Type' := t, Name := n }
  | _ => .error "expected a map"

/-- Element-wise decoding loop of `toReferenceSlice` (Go returns on the first
failing element; the error message keeps the source's spelling). -/
def decodeAllReferences : List JVal → Except String (List Reference)
  | [] => .ok []
  | v :: vs =>
    match decodeReference v with
    | .error e => .error ("conversion errror to reference element: " ++ e)
    | .ok r => (decodeAllReferences vs).map (r :: ·)

/-- The `toReferenceSlice`: the input must be a Go `[]interface\x7b\x7d` (a JSON
array); each element is decoded through `mapstructure`. -/
def toReferenceSlice (val : Option JVal) : Except String (List Reference) :=
  match val with
  | some (.arr vs) => decodeAllReferences vs
  | _ => .error "conversion error to array"

/-- The `GetByReferencePanelIDs` returns IDs of saved objects that compose the
by-ref panels of the dashboard.  The `dashboard.(map[string]interface\x7b\x7d)`
type assertion is unchecked: a non-object input panics. -/
def GetByReferencePanelIDs (dashboard : JVal) : GoResult (List String) :=
  match dashboard with
  | .obj dm =>
    match toReferenceSlice (goIndex dm "references") with
    | .error e => .err e
    | .ok refs =>
      .ok (refs.filterMap fun r =>
        if strContains r.Name "panel_" then some r.ID else none)
  | _ => .panics

/-! ## Basic lemmas about the path operations -/

theorem lookupField_setKey_self (fs : JObj) (k : String) (v : JVal) :
    lookupField (setKey fs k v) k = some v := by
  induction fs with
  | nil => simp [setKey, lookupField]
  | cons kv fs ih =>
    obtain ⟨k', w⟩ := kv
    by_cases h : k' = k <;> simp [setKey, lookupField, h, ih]

theorem lookupField_setKey_ne (fs : JObj) (k k' : String) (v : JVal)
    (h : k ≠ k') : lookupField (setKey fs k v) k' = lookupField fs k' := by
  induction fs with
  | nil => simp [setKey, lookupField, h]
  | cons kv fs ih =>
    obtain ⟨k'', w⟩ := kv
    by_cases h2 : k'' = k
    · subst h2
      simp [setKey, lookupField, h]
    · simp [setKey, lookupField, h2, ih]

theorem jGet_objSet_self (path : List String) (hne : path ≠ []) :
    ∀ (d : JObj) (v : JVal), jGet (.obj (objSet d path v)) path = some v := by
  induction path with
  | nil => exact absurd rfl hne
  | cons k ks ih =>
    intro d v
    cases ks with
    | nil => simp [objSet, jGet, lookupField_setKey_self]
    | cons k' ks' =>
      have ihne : k' :: ks' ≠ [] := by simp
      cases hlk : lookupField d k with
      | none =>
        simp only [objSet, hlk, jGet, lookupField_setKey_self]
        exact ih ihne [] v
      | some w =>
        cases w <;>
          simp only [objSet, hlk, jGet, lookupField_setKey_self] <;>
          first
            | exact ih ihne [] v
            | exact ih ihne _ v

theorem lookupField_objSet_cons_ne (d : JObj) (k k' : String) (ks : List String)
    (v : JVal) (h : k ≠ k') :
    lookupField (objSet d (k :: ks) v) k' = lookupField d k' := by
  cases ks with
  | nil => simp [objSet, lookupField_setKey_ne _ _ _ _ h]
  | cons k2 ks2 =>
    cases hlk : lookupField d k with
    | none => simp [objSet, hlk, lookupField_setKey_ne _ _ _ _ h]
    | some w => cases w <;> simp [objSet, hlk, lookupField_setKey_ne _ _ _ _ h]

theorem jGet_objSet_branch_ne (a k k' : String) (ks ks' : List String)
    (h : k ≠ k') (d : JObj) (v : JVal) :
    jGet (.obj (objSet d (a :: k :: ks) v)) (a :: k' :: ks')
      = jGet (.obj d) (a :: k' :: ks') := by
  have hlem : ∀ e : JObj, lookupField (objSet e (k :: ks) v) k' = lookupField e k' :=
    fun e => lookupField_objSet_cons_ne e k k' ks v h
  cases hlk : lookupField d a with
  | none =>
    simp only [objSet, hlk, jGet, lookupField_setKey_self]
    rw [hlem []]
    simp [lookupField]
  | some w =>
    cases w with
    | obj inner =>
      simp only [objSet, hlk, jGet, lookupField_setKey_self]
      rw [hlem inner]
    | null =>
      simp only [objSet, hlk, jGet, lookupField_setKey_self]
      rw [hlem []]
      simp [lookupField]
    | bool b =>
      simp only [objSet, hlk, jGet, lookupField_setKey_self]
      rw [hlem []]
      simp [lookupField]
    | num lit =>
      simp only [objSet, hlk, jGet, lookupField_setKey_self]
      rw [hlem []]
      simp [lookupField]
    | str s =>
      simp only [objSet, hlk, jGet, lookupField_setKey_self]
      rw [hlem []]
      simp [lookupField]
    | arr xs =>
      simp only [objSet, hlk, jGet, lookupField_setKey_self]
      rw [hlem []]
      simp [lookupField]

theorem goGet_objSet_branch_ne (a k k' : String) (ks ks' : List String)
    (h : k ≠ k') (d : JObj) (v : JVal) :
    goGet (.obj (objSet d (a :: k :: ks) v)) (a :: k' :: ks')
      = goGet (.obj d) (a :: k' :: ks') := by
  unfold goGet
  rw [jGet_objSet_branch_ne a k k' ks ks' h d v]

/-! ## Claims C1, C3: classification rule tables -/

/-- The legacy policy as the specification words it: false unless the saved
object is a visualization; for TSVB (`type == "metrics"`) legacy iff the TSVB
sub-type is not `markdown`; otherwise legacy unless the type is in the
exemption set. -/
def isLegacySpec (savedObjectType typ tsvbType : String) : Bool :=
  if savedObjectType ≠ "visualization" then false
  else if typ = "metrics" then tsvbType != "markdown"
  else !(["markdown", "vega", "input_control_vis"].contains typ)

/-- C1: for every descriptor, `IsLegacy` returns false when the saved-object
type is not "visualization"; for visualization documents whose resolved type
is "metrics", it is true iff the resolved TSVB sub-type is not "markdown";
for every other visualization document it is true iff the resolved type is
outside the exemption set \x7b"markdown", "vega", "input_control_vis"\x7d. -/
theorem isLegacy_matches_policy (v : VisualizationDescriptor) :
    v.IsLegacy = isLegacySpec v.SavedObjectType v.Type' v.TSVBType := by
  unfold VisualizationDescriptor.IsLegacy isLegacySpec
    VisualizationDescriptor.TSVBType VisualizationDescriptor.isTSVB
  by_cases hso : v.SavedObjectType = "visualization"
  · by_cases ht : v.Type' = "metrics"
    · simp [hso, ht]
    · simp only [hso, ht, ne_eq, not_true_eq_false, if_false, ite_false,
        if_true, beq_iff_eq, Bool.not_eq_true]
      split <;> simp_all [List.contains]
  · simp [hso]

/-- The editor table as the specification words it. -/
def editorSpec (savedObjectType typ : String) : Except String String :=
  if savedObjectType = "lens" then .ok "Lens"
  else if savedObjectType = "map" then .ok "Maps"
  else if savedObjectType = "search" then .ok "Discover"
  else if savedObjectType = "visualization" then
    .ok (if typ = "metrics" then "TSVB"
         else if typ = "vega" then "Vega"
         else if typ = "timelion" then "Timelion"
         else "Aggs-based")
  else .error "Unknown editor type"

/-- C3: `Editor` is a pure function of the saved-object type and the resolved
visualization type, mapping lens to "Lens", map to "Maps", search to
"Discover", visualization to "TSVB"/"Vega"/"Timelion"/"Aggs-based" by resolved
type, and failing with the unknown-editor error exactly on every other
saved-object type. -/
theorem editor_matches_table (v : VisualizationDescriptor) :
    v.Editor = editorSpec v.SavedObjectType v.Type' := by
  unfold VisualizationDescriptor.Editor editorSpec
  split <;> simp_all
  split <;> simp_all

/-! ## Claim C5: the path resolver -/

/-- The Path Resolver as the specification words it: the value of the first
candidate path whose present value is a string, skipping present non-string
values; `none` on total absence of a string value. -/
def firstDocString (v : VisualizationDescriptor) : List String → Option String
  | [] => none
  | p :: ps =>
    match goGet (.obj v.Doc) (parseSelector p) with
    | some (.str s) => some s
    | _ => firstDocString v ps

/-- C5 counterexample: a document whose first candidate path holds the empty
string.  `findDocumentPathsAsString` yields the empty result even though a
string value is present at a candidate path, refuting "yields the empty result
only on total absence of a string value across every candidate path". -/
theorem findDocumentPaths_empty_result_cex :
    (VisualizationDescriptor.findDocumentPathsAsString
        ⟨[("attributes", .obj [("type", .str "")])], "visualization", "by_reference"⟩
        ["attributes.type", "attributes.visState.type", "embeddableConfig.savedVis.type"]
      = "")
    ∧ goGet (.obj [("attributes", .obj [("type", .str "")])])
        (parseSelector "attributes.type") = some (.str "") := by
  exact ⟨by decide, by decide⟩

/-- C5 (amended): the path resolver returns the value of the first candidate
path whose present value is a string, skipping present non-string values as if
absent; it yields the empty result exactly when either no candidate path
resolves to a string, or the first string so found is itself empty. -/
theorem findDocumentPaths_first_string (v : VisualizationDescriptor)
    (paths : List String) :
    v.findDocumentPathsAsString paths = (firstDocString v paths).getD ""
    ∧ (v.findDocumentPathsAsString paths = "" ↔
        firstDocString v paths = none ∨ firstDocString v paths = some "") := by
  induction paths with
  | nil =>
    simp [VisualizationDescriptor.findDocumentPathsAsString, firstDocString]
  | cons p ps ih =>
    obtain ⟨ih1, ih2⟩ := ih
    by_cases hs : valueIsStr (goGet (.obj v.Doc) (parseSelector p)) = true
    · obtain ⟨s, hg⟩ : ∃ s, goGet (.obj v.Doc) (parseSelector p) = some (.str s) := by
        cases hg2 : goGet (.obj v.Doc) (parseSelector p) with
        | none => simp [hg2, valueIsStr] at hs
        | some w => cases w <;> simp_all [valueIsStr]
      simp [VisualizationDescriptor.findDocumentPathsAsString, firstDocString,
        hg, valueIsStr, valueStr]
    · have hfd : firstDocString v (p :: ps) = firstDocString v ps := by
        cases hg2 : goGet (.obj v.Doc) (parseSelector p) with
        | none => simp only [firstDocString, hg2]
        | some w =>
          cases w with
          | str s => exact absurd (by simp [valueIsStr, hg2]) hs
          | null => simp only [firstDocString, hg2]
          | bool b => simp only [firstDocString, hg2]
          | num lit => simp only [firstDocString, hg2]
          | arr xs => simp only [firstDocString, hg2]
          | obj fs => simp only [firstDocString, hg2]
      have hff : v.findDocumentPathsAsString (p :: ps)
          = v.findDocumentPathsAsString ps := by
        simp [VisualizationDescriptor.findDocumentPathsAsString, hs]
      rw [hfd, hff]
      exact ⟨ih1, ih2⟩

/-! ## Claims C9, C10: the reference extractor -/

theorem filterMap_if_eq_map_filter {α β : Type} (p : α → Bool) (f : α → β)
    (l : List α) :
    (l.filterMap fun a => if p a then some (f a) else none)
      = (l.filter p).map f := by
  induction l with
  | nil => rfl
  | cons a l ih => by_cases h : p a <;> simp [h, ih]

/-- The Reference Extractor contract as the specification words it: read the
reference list, keep the entries whose name contains the substring "panel_",
and return their ids in list order; fail when the references field is absent
or not a list, or when an element cannot be decoded. -/
def byReferencePanelIdsSpec (dm : JObj) : GoResult (List String) :=
  match goIndex dm "references" with
  | some (.arr vs) =>
    match decodeAllReferences vs with
    | .ok refs =>
      .ok ((refs.filter fun r => strContains r.Name "panel_").map Reference.ID)
    | .error e => .err e
  | _ => .err "conversion error to array"

/-- C9: for every dashboard map, `GetByReferencePanelIDs` returns, in
reference-list order, the ids of exactly the decodable reference entries whose
name contains "panel_", and fails with an error when the references field is
absent or not a list or some element cannot be decoded into the
\x7bid, type, name\x7d triple shape. -/
theorem getByReferencePanelIDs_matches_contract (dm : JObj) :
    GetByReferencePanelIDs (.obj dm) = byReferencePanelIdsSpec dm := by
  cases hr : goIndex dm "references" with
  | none =>
    simp [GetByReferencePanelIDs, byReferencePanelIdsSpec, toReferenceSlice, hr]
  | some w =>
    cases w with
    | arr vs =>
      cases hd : decodeAllReferences vs with
      | error e =>
        simp [GetByReferencePanelIDs, byReferencePanelIdsSpec, toReferenceSlice,
          hr, hd]
      | ok refs =>
        simp [GetByReferencePanelIDs, byReferencePanelIdsSpec, toReferenceSlice,
          hr, hd, filterMap_if_eq_map_filter]
    | null =>
      simp [GetByReferencePanelIDs, byReferencePanelIdsSpec, toReferenceSlice, hr]
    | bool b =>
      simp [GetByReferencePanelIDs, byReferencePanelIdsSpec, toReferenceSlice, hr]
    | num lit =>
      simp [GetByReferencePanelIDs, byReferencePanelIdsSpec, toReferenceSlice, hr]
    | str s =>
      simp [GetByReferencePanelIDs, byReferencePanelIdsSpec, toReferenceSlice, hr]
    | obj fs =>
      simp [GetByReferencePanelIDs, byReferencePanelIdsSpec, toReferenceSlice, hr]

/-- C10: `GetByReferencePanelIDs` panics exactly on inputs that are not JSON
objects (the unchecked `map[string]interface\x7b\x7d` type assertion); on
objects it returns the typed result, never a panic. -/
theorem getByReferencePanelIDs_panics_iff (dashboard : JVal) :
    GetByReferencePanelIDs dashboard = .panics
      ↔ ∀ fs : JObj, dashboard ≠ .obj fs := by
  cases dashboard with
  | obj dm =>
    apply iff_of_false
    · unfold GetByReferencePanelIDs
      cases h : toReferenceSlice (goIndex dm "references") <;> simp [h]
    · exact fun h => h dm rfl
  | null => exact iff_of_true rfl (fun fs h => JVal.noConfusion h)
  | bool b => exact iff_of_true rfl (fun fs h => JVal.noConfusion h)
  | num lit => exact iff_of_true rfl (fun fs h => JVal.noConfusion h)
  | str s => exact iff_of_true rfl (fun fs h => JVal.noConfusion h)
  | arr xs => exact iff_of_true rfl (fun fs h => JVal.noConfusion h)

/-! ## Claim C2: the panel collector -/

/-- The Panel Collector inclusion rule as the claim words it: a panel with a
string `type` field is included iff it is a visualization with an embedded
`embeddableConfig.savedVis`, or a lens/map with embedded
`embeddableConfig.attributes`; the resulting descriptor carries the panel and
`Link == "by_value"`. -/
def specPanelDescriptor (panel : JObj) : Option VisualizationDescriptor :=
  match goGet (.obj panel) (parseSelector "type") with
  | some (.str t) =>
    if (t == "visualization" && jHas panel (parseSelector "embeddableConfig.savedVis"))
        || ((t == "lens" || t == "map")
              && jHas panel (parseSelector "embeddableConfig.attributes")) then
      some { Doc := panel, SavedObjectType := t, Link := "by_value" }
    else none
  | _ => none

theorem describeOnePanel_eq_spec (panel : JObj) :
    describeOnePanel panel = specPanelDescriptor panel := by
  unfold describeOnePanel specPanelDescriptor
  cases hg : goGet (.obj panel) (parseSelector "type") with
  | none => rfl
  | some w =>
    cases w with
    | str t =>
      cases h1 : jHas panel (parseSelector "embeddableConfig.savedVis") <;>
        cases h2 : jHas panel (parseSelector "embeddableConfig.attributes") <;>
        cases h3 : t == "visualization" <;>
        cases h4 : t == "lens" <;>
        cases h5 : t == "map" <;>
        simp_all
    | null => rfl
    | bool b => rfl
    | num lit => rfl
    | arr xs => rfl
    | obj fs => rfl

theorem valueIsObjxMapSlice_map_obj (ps : List JObj) :
    valueIsObjxMapSlice (some (.arr (ps.map JVal.obj))) = true := by
  simp [valueIsObjxMapSlice, List.all_map]

theorem valueObjxMapSlice_map_obj (ps : List JObj) :
    valueObjxMapSlice (some (.arr (ps.map JVal.obj))) = ps := by
  induction ps with
  | nil => rfl
  | cons p ps ih => simpa [valueObjxMapSlice] using ih

/-- C2: for every dashboard whose `attributes.panelsJSON` is a JSON-encoded
string or a pre-parsed list of panel objects, `DescribeByValueDashboardPanels`
returns, in original panel order, exactly one `Link == "by_value"` descriptor
for each panel with a string `type` satisfying the inclusion rule
(visualization with `embeddableConfig.savedVis`, or lens/map with
`embeddableConfig.attributes`), silently skipping every other panel; and the
string form and the pre-parsed form produce the same sequence. -/
theorem describeByValuePanels_matches_contract (dm dm' : JObj) (s : String)
    (panels : List JObj)
    (hstr : goGet (.obj dm) (parseSelector "attributes.panelsJSON") = some (.str s))
    (hparse : fromJSONSlice s = .ok panels)
    (hlist : goGet (.obj dm') (parseSelector "attributes.panelsJSON")
        = some (.arr (panels.map JVal.obj))) :
    DescribeByValueDashboardPanels (.obj dm)
        = .ok (panels.filterMap specPanelDescriptor)
    ∧ DescribeByValueDashboardPanels (.obj dm')
        = .ok (panels.filterMap specPanelDescriptor) := by
  have hfun : describeOnePanel = specPanelDescriptor :=
    funext describeOnePanel_eq_spec
  constructor
  · simp [DescribeByValueDashboardPanels, hstr, hparse, hfun]
  · simp [DescribeByValueDashboardPanels, hlist, valueIsObjxMapSlice_map_obj,
      valueObjxMapSlice_map_obj, hfun]

/-- C2 witness: a concrete dashboard holding one included visualization panel,
one by-reference panel (no `type`), and one excluded panel, supplied both as a
JSON string and as the corresponding pre-parsed list. -/
theorem describeByValuePanels_matches_contract_witness :
    DescribeByValueDashboardPanels (.obj
        [("attributes", .obj [("panelsJSON", .str
          "[\x7b\"type\": \"visualization\", \"embeddableConfig\": \x7b\"savedVis\": \x7b\x7d\x7d\x7d, \x7b\"panelRefName\": \"panel_1\"\x7d, \x7b\"type\": \"discover\"\x7d]")])])
      = .ok ([[("type", .str "visualization"),
               ("embeddableConfig", .obj [("savedVis", .obj [])])],
              [("panelRefName", .str "panel_1")],
              [("type", .str "discover")]].filterMap specPanelDescriptor)
    ∧ DescribeByValueDashboardPanels (.obj
        [("attributes", .obj [("panelsJSON", .arr
          ([[("type", .str "visualization"),
             ("embeddableConfig", .obj [("savedVis", .obj [])])],
            [("panelRefName", .str "panel_1")],
            [("type", .str "discover")]].map JVal.obj))])])
      = .ok ([[("type", .str "visualization"),
               ("embeddableConfig", .obj [("savedVis", .obj [])])],
              [("panelRefName", .str "panel_1")],
              [("type", .str "discover")]].filterMap specPanelDescriptor) :=
  describeByValuePanels_matches_contract
    [("attributes", .obj [("panelsJSON", .str
      "[\x7b\"type\": \"visualization\", \"embeddableConfig\": \x7b\"savedVis\": \x7b\x7d\x7d\x7d, \x7b\"panelRefName\": \"panel_1\"\x7d, \x7b\"type\": \"discover\"\x7d]")])]
    [("attributes", .obj [("panelsJSON", .arr
      ([[("type", .str "visualization"),
         ("embeddableConfig", .obj [("savedVis", .obj [])])],
        [("panelRefName", .str "panel_1")],
        [("type", .str "discover")]].map JVal.obj))])]
    "[\x7b\"type\": \"visualization\", \"embeddableConfig\": \x7b\"savedVis\": \x7b\x7d\x7d\x7d, \x7b\"panelRefName\": \"panel_1\"\x7d, \x7b\"type\": \"discover\"\x7d]"
    [[("type", .str "visualization"),
      ("embeddableConfig", .obj [("savedVis", .obj [])])],
     [("panelRefName", .str "panel_1")],
     [("type", .str "discover")]]
    (by decide) (by decide) (by decide)

/-! ## Claim C4: filter/query detection -/

theorem isObjBool_iff (x : JVal) :
    (match x with | JVal.obj _ => true | _ => false) = true
      ↔ ∃ fs : JObj, x = JVal.obj fs := by
  cases x <;> simp

theorem queryCond_iff (d : JObj) (p : String) :
    (let q := goGet (.obj d) (parseSelector p)
     valueIsStr q && valueStr q != "") = true
    ↔ ∃ s : String, goGet (.obj d) (parseSelector p) = some (.str s) ∧ s ≠ "" := by
  cases hg : goGet (.obj d) (parseSelector p) with
  | none => simp [hg, valueIsStr]
  | some w => cases w <;> simp [hg, valueIsStr, valueStr]

theorem filterCond_iff (d : JObj) (p : String) :
    (let f := goGet (.obj d) (parseSelector p)
     valueIsObjxMapSlice f && valueObjxMapSliceLen f > 0) = true
    ↔ ∃ xs : List JVal, goGet (.obj d) (parseSelector p) = some (.arr xs)
        ∧ xs ≠ [] ∧ ∀ x ∈ xs, ∃ fs : JObj, x = JVal.obj fs := by
  cases hg : goGet (.obj d) (parseSelector p) with
  | none => simp [hg, valueIsObjxMapSlice]
  | some w =>
    cases w with
    | arr xs =>
      simp only [hg, valueIsObjxMapSlice, valueObjxMapSliceLen,
        Bool.and_eq_true, List.all_eq_true, decide_eq_true_eq,
        Option.some.injEq, JVal.arr.injEq]
      constructor
      · rintro ⟨hall, hlen⟩
        exact ⟨xs, rfl, List.length_pos.mp hlen,
          fun x hx => (isObjBool_iff x).mp (hall x hx)⟩
      · rintro ⟨xs', hxs, hne, hall⟩
        subst hxs
        exact ⟨fun x hx => (isObjBool_iff x).mpr (hall x hx),
          List.length_pos.mpr hne⟩
    | null => simp [hg, valueIsObjxMapSlice]
    | bool b => simp [hg, valueIsObjxMapSlice]
    | num lit => simp [hg, valueIsObjxMapSlice]
    | str s => simp [hg, valueIsObjxMapSlice]
    | obj fs => simp [hg, valueIsObjxMapSlice]

theorem queryHit_iff (d : JObj) :
    queryHit d = true
      ↔ ∃ p ∈ queryPaths, ∃ s : String,
          goGet (.obj d) (parseSelector p) = some (.str s) ∧ s ≠ "" := by
  rw [queryHit, List.any_eq_true]
  exact exists_congr fun p => and_congr_right fun _ => queryCond_iff d p

theorem filterHit_iff (d : JObj) :
    filterHit d = true
      ↔ ∃ p ∈ filterPaths, ∃ xs : List JVal,
          goGet (.obj d) (parseSelector p) = some (.arr xs) ∧ xs ≠ []
            ∧ ∀ x ∈ xs, ∃ fs : JObj, x = JVal.obj fs := by
  rw [filterHit, List.any_eq_true]
  exact exists_congr fun p => and_congr_right fun _ => filterCond_iff d p

/-- C4 counterexample: a document whose `attributes.state.filters` is a
non-empty list that is not a list of objects.  The claim says `HasFilters`
must return true for any non-empty list at a filter path; the code checks
`IsObjxMapSlice` and returns false here. -/
theorem hasFilters_nonmap_list_cex :
    deserializeSubPaths
        [("attributes", .obj [("state", .obj [("filters", .arr [.str "x"])])])]
      = (none, [("attributes", .obj [("state", .obj [("filters", .arr [.str "x"])])])])
    ∧ VisualizationDescriptor.HasFilters
        ⟨[("attributes", .obj [("state", .obj [("filters", .arr [.str "x"])])])],
          "visualization", "by_reference"⟩
      = (.ok false,
         [("attributes", .obj [("state", .obj [("filters", .arr [.str "x"])])])])
    ∧ goGet (.obj [("attributes", .obj [("state", .obj [("filters", .arr [.str "x"])])])])
        (parseSelector "attributes.state.filters") = some (.arr [.str "x"])
    ∧ ([JVal.str "x"] : List JVal) ≠ [] := by
  exact ⟨by decide, by decide, by decide, by decide⟩

/-- C4 (amended): for every document on which inflation succeeds, `HasFilters`
returns, without error, true iff some known query path resolves to a non-empty
string or some known filter path resolves to a non-empty list of objects
(maps); the two path lists are evaluated as a union, any single match
sufficing. -/
theorem hasFilters_union_spec (doc d : JObj) (sot link : String)
    (h : deserializeSubPaths doc = (none, d)) :
    ∃ b : Bool,
      VisualizationDescriptor.HasFilters ⟨doc, sot, link⟩ = (.ok b, d)
      ∧ (b = true ↔
          (∃ p ∈ queryPaths, ∃ s : String,
              goGet (.obj d) (parseSelector p) = some (.str s) ∧ s ≠ "")
          ∨ (∃ p ∈ filterPaths, ∃ xs : List JVal,
              goGet (.obj d) (parseSelector p) = some (.arr xs) ∧ xs ≠ []
                ∧ ∀ x ∈ xs, ∃ fs : JObj, x = JVal.obj fs)) := by
  have hD : VisualizationDescriptor.HasFilters ⟨doc, sot, link⟩
      = (if queryHit d then (.ok true, d)
         else if filterHit d then (.ok true, d)
         else (.ok false, d)) := by
    unfold VisualizationDescriptor.HasFilters
    rw [show (⟨doc, sot, link⟩ : VisualizationDescriptor).Doc = doc from rfl, h]
  rw [hD]
  by_cases hc1 : queryHit d = true
  · refine ⟨true, by simp [hc1], ?_⟩
    simp only [true_iff]
    exact Or.inl ((queryHit_iff d).mp hc1)
  · by_cases hc2 : filterHit d = true
    · refine ⟨true, by simp [hc1, hc2], ?_⟩
      simp only [true_iff]
      exact Or.inr ((filterHit_iff d).mp hc2)
    · refine ⟨false, by simp [hc1, hc2], ?_⟩
      apply iff_of_false (by simp)
      rintro (hx | hx)
      · exact hc1 ((queryHit_iff d).mpr hx)
      · exact hc2 ((filterHit_iff d).mpr hx)

/-- C4 witness: a concrete already-inflated document with a non-empty filter
list of objects at `attributes.state.filters`. -/
theorem hasFilters_union_spec_witness :
    ∃ b : Bool,
      VisualizationDescriptor.HasFilters
          ⟨[("attributes", .obj [("state", .obj
              [("filters", .arr [.obj [("meta", .str "m")]])])])],
            "visualization", "by_reference"⟩
        = (.ok b, [("attributes", .obj [("state", .obj
              [("filters", .arr [.obj [("meta", .str "m")]])])])])
      ∧ (b = true ↔
          (∃ p ∈ queryPaths, ∃ s : String,
              goGet (.obj [("attributes", .obj [("state", .obj
                  [("filters", .arr [.obj [("meta", .str "m")]])])])])
                (parseSelector p) = some (.str s) ∧ s ≠ "")
          ∨ (∃ p ∈ filterPaths, ∃ xs : List JVal,
              goGet (.obj [("attributes", .obj [("state", .obj
                  [("filters", .arr [.obj [("meta", .str "m")]])])])])
                (parseSelector p) = some (.arr xs) ∧ xs ≠ []
                ∧ ∀ x ∈ xs, ∃ fs : JObj, x = JVal.obj fs)) :=
  hasFilters_union_spec
    [("attributes", .obj [("state", .obj
        [("filters", .arr [.obj [("meta", .str "m")]])])])]
    [("attributes", .obj [("state", .obj
        [("filters", .arr [.obj [("meta", .str "m")]])])])]
    "visualization" "by_reference" (by decide)

/-! ## Claims C6, C7, C8: inflation as a state transformer -/

/-- A sub-document field is "bad" when it holds a string whose decoding
fails. -/
def fieldBad (d : JObj) (p : String) : Bool :=
  match goGet (.obj d) (parseSelector p) with
  | some (.str s) =>
    match fromJSON s with
    | .error _ => true
    | .ok _ => false
  | _ => false

theorem deserializeOne_err (e : String) (d : JObj) (p : String) :
    deserializeOne (some e, d) p = (some e, d) := rfl

theorem deserializeOne_of_notStr (d : JObj) (p : String)
    (h : valueIsStr (goGet (.obj d) (parseSelector p)) = false) :
    deserializeOne (none, d) p = (none, d) := by
  cases hg : goGet (.obj d) (parseSelector p) with
  | none => simp [deserializeOne, hg]
  | some w =>
    cases w with
    | str s => rw [hg] at h; simp [valueIsStr] at h
    | null => simp [deserializeOne, hg]
    | bool b => simp [deserializeOne, hg]
    | num lit => simp [deserializeOne, hg]
    | arr xs => simp [deserializeOne, hg]
    | obj fs => simp [deserializeOne, hg]

theorem deserializeOne_notStr_after (d d' : JObj) (p : String)
    (a : String) (ks : List String) (hp : parseSelector p = a :: ks)
    (h : deserializeOne (none, d) p = (none, d')) :
    valueIsStr (goGet (.obj d') (parseSelector p)) = false := by
  cases hg : goGet (.obj d) (parseSelector p) with
  | none =>
    simp only [deserializeOne, hg, Prod.mk.injEq, true_and] at h
    rw [← h, hg]
    rfl
  | some w =>
    cases w with
    | str s =>
      cases hf : fromJSON s with
      | error e => simp [deserializeOne, hg, hf] at h
      | ok parsed =>
        simp only [deserializeOne, hg, hf, Prod.mk.injEq, true_and] at h
        have hself : jGet (.obj (objSet d (parseSelector p) (.obj parsed)))
            (parseSelector p) = some (.obj parsed) := by
          rw [hp]
          exact jGet_objSet_self (a :: ks) (by simp) d (.obj parsed)
        rw [← h]
        simp [goGet, hself, valueIsStr]
    | null =>
      simp only [deserializeOne, hg, Prod.mk.injEq, true_and] at h
      rw [← h, hg]; rfl
    | bool b =>
      simp only [deserializeOne, hg, Prod.mk.injEq, true_and] at h
      rw [← h, hg]; rfl
    | num lit =>
      simp only [deserializeOne, hg, Prod.mk.injEq, true_and] at h
      rw [← h, hg]; rfl
    | arr xs =>
      simp only [deserializeOne, hg, Prod.mk.injEq, true_and] at h
      rw [← h, hg]; rfl
    | obj fs =>
      simp only [deserializeOne, hg, Prod.mk.injEq, true_and] at h
      rw [← h, hg]; rfl

theorem deserializeOne_preserves_get (d d' : JObj) (p q : String)
    (a k k' : String) (ks ks' : List String)
    (hp : parseSelector p = a :: k :: ks)
    (hq : parseSelector q = a :: k' :: ks')
    (hne : k ≠ k')
    (h : deserializeOne (none, d) p = (none, d')) :
    goGet (.obj d') (parseSelector q) = goGet (.obj d) (parseSelector q) := by
  cases hg : goGet (.obj d) (parseSelector p) with
  | none =>
    simp only [deserializeOne, hg, Prod.mk.injEq, true_and] at h
    rw [h]
  | some w =>
    cases w with
    | str s =>
      cases hf : fromJSON s with
      | error e => simp [deserializeOne, hg, hf] at h
      | ok parsed =>
        simp only [deserializeOne, hg, hf, Prod.mk.injEq, true_and] at h
        rw [← h, hp, hq]
        exact goGet_objSet_branch_ne a k k' ks ks' hne d (.obj parsed)
    | null =>
      simp only [deserializeOne, hg, Prod.mk.injEq, true_and] at h
      rw [h]
    | bool b =>
      simp only [deserializeOne, hg, Prod.mk.injEq, true_and] at h
      rw [h]
    | num lit =>
      simp only [deserializeOne, hg, Prod.mk.injEq, true_and] at h
      rw [h]
    | arr xs =>
      simp only [deserializeOne, hg, Prod.mk.injEq, true_and] at h
      rw [h]
    | obj fs =>
      simp only [deserializeOne, hg, Prod.mk.injEq, true_and] at h
      rw [h]

theorem selector_uiState :
    parseSelector "attributes.uiStateJSON" = ["attributes", "uiStateJSON"] := by
  decide

theorem selector_visState :
    parseSelector "attributes.visState" = ["attributes", "visState"] := by
  decide

theorem selector_searchSource :
    parseSelector "attributes.kibanaSavedObjectMeta.searchSourceJSON"
      = ["attributes", "kibanaSavedObjectMeta", "searchSourceJSON"] := by
  decide

theorem deserializeSubPaths_as_steps (doc : JObj) :
    deserializeSubPaths doc
      = deserializeOne (deserializeOne (deserializeOne (none, doc)
          "attributes.uiStateJSON") "attributes.visState")
          "attributes.kibanaSavedObjectMeta.searchSourceJSON" := rfl

/-- Helper for the idempotence of inflation, shared by the idempotence and
no-mutation results below: after a successful run, none of the three fields is
a string any more, so a second run is a no-op. -/
theorem deserializeSubPaths_idem_aux (doc d : JObj)
    (h : deserializeSubPaths doc = (none, d)) :
    deserializeSubPaths d = (none, d) := by
  rw [deserializeSubPaths_as_steps] at h
  rcases h1 : deserializeOne (none, doc) "attributes.uiStateJSON" with ⟨e1, d1⟩
  rw [h1] at h
  cases e1 with
  | some e => rw [deserializeOne_err, deserializeOne_err] at h; cases h
  | none =>
    rcases h2 : deserializeOne (none, d1) "attributes.visState" with ⟨e2, d2⟩
    rw [h2] at h
    cases e2 with
    | some e => rw [deserializeOne_err] at h; cases h
    | none =>
      have n1d1 : valueIsStr (goGet (.obj d1)
          (parseSelector "attributes.uiStateJSON")) = false :=
        deserializeOne_notStr_after doc d1 _ "attributes" ["uiStateJSON"]
          selector_uiState h1
      have n2d2 : valueIsStr (goGet (.obj d2)
          (parseSelector "attributes.visState")) = false :=
        deserializeOne_notStr_after d1 d2 _ "attributes" ["visState"]
          selector_visState h2
      have n3d : valueIsStr (goGet (.obj d)
          (parseSelector "attributes.kibanaSavedObjectMeta.searchSourceJSON"))
          = false :=
        deserializeOne_notStr_after d2 d _ "attributes"
          ["kibanaSavedObjectMeta", "searchSourceJSON"] selector_searchSource h
      have p21 : goGet (.obj d2) (parseSelector "attributes.uiStateJSON")
          = goGet (.obj d1) (parseSelector "attributes.uiStateJSON") :=
        deserializeOne_preserves_get d1 d2 _ _ "attributes" "visState"
          "uiStateJSON" [] [] selector_visState selector_uiState
          (by decide) h2
      have p31 : goGet (.obj d) (parseSelector "attributes.uiStateJSON")
          = goGet (.obj d2) (parseSelector "attributes.uiStateJSON") :=
        deserializeOne_preserves_get d2 d _ _ "attributes"
          "kibanaSavedObjectMeta" "uiStateJSON" ["searchSourceJSON"] []
          selector_searchSource selector_uiState (by decide) h
      have p32 : goGet (.obj d) (parseSelector "attributes.visState")
          = goGet (.obj d2) (parseSelector "attributes.visState") :=
        deserializeOne_preserves_get d2 d _ _ "attributes"
          "kibanaSavedObjectMeta" "visState" ["searchSourceJSON"] []
          selector_searchSource selector_visState (by decide) h
      have n1 : valueIsStr (goGet (.obj d)
          (parseSelector "attributes.uiStateJSON")) = false := by
        rw [p31, p21]; exact n1d1
      have n2 : valueIsStr (goGet (.obj d)
          (parseSelector "attributes.visState")) = false := by
        rw [p32]; exact n2d2
      rw [deserializeSubPaths_as_steps,
        deserializeOne_of_notStr d _ n1,
        deserializeOne_of_notStr d _ n2,
        deserializeOne_of_notStr d _ n3d]

/-- C7: inflation is idempotent: if `deserializeSubPaths` succeeds turning the
document into `d`, then running it again on `d` succeeds and leaves `d`
unchanged — two runs yield exactly the same structure as one run. -/
theorem deserializeSubPaths_idem (doc d : JObj)
    (h : deserializeSubPaths doc = (none, d)) :
    deserializeSubPaths d = (none, d) :=
  deserializeSubPaths_idem_aux doc d h

/-- C7 witness: a concrete document with one JSON-encoded sub-document;
inflation succeeds, and a second run is a no-op. -/
theorem deserializeSubPaths_idem_witness :
    deserializeSubPaths
        [("type", .str "visualization"),
         ("attributes", .obj [("visState", .str "\x7b\"type\": \"metrics\"\x7d")])]
      = (none,
         [("type", .str "visualization"),
          ("attributes", .obj [("visState", .obj [("type", .str "metrics")])])])
    ∧ deserializeSubPaths
        [("type", .str "visualization"),
         ("attributes", .obj [("visState", .obj [("type", .str "metrics")])])]
      = (none,
         [("type", .str "visualization"),
          ("attributes", .obj [("visState", .obj [("type", .str "metrics")])])]) :=
  ⟨by decide,
   deserializeSubPaths_idem
     [("type", .str "visualization"),
      ("attributes", .obj [("visState", .str "\x7b\"type\": \"metrics\"\x7d")])]
     [("type", .str "visualization"),
      ("attributes", .obj [("visState", .obj [("type", .str "metrics")])])]
     (by decide)⟩

theorem fieldBad_congr (d doc : JObj) (p : String)
    (h : goGet (.obj d) (parseSelector p) = goGet (.obj doc) (parseSelector p)) :
    fieldBad d p = fieldBad doc p := by
  unfold fieldBad
  rw [h]

theorem deserializeOne_good (d : JObj) (p : String)
    (hfb : fieldBad d p = false) :
    ∃ d' : JObj, deserializeOne (none, d) p = (none, d') := by
  cases hg : goGet (.obj d) (parseSelector p) with
  | none => exact ⟨d, by simp [deserializeOne, hg]⟩
  | some w =>
    cases w with
    | str s =>
      cases hf : fromJSON s with
      | error e => simp [fieldBad, hg, hf] at hfb
      | ok parsed =>
        exact ⟨objSet d (parseSelector p) (.obj parsed),
          by simp [deserializeOne, hg, hf]⟩
    | null => exact ⟨d, by simp [deserializeOne, hg]⟩
    | bool b => exact ⟨d, by simp [deserializeOne, hg]⟩
    | num lit => exact ⟨d, by simp [deserializeOne, hg]⟩
    | arr xs => exact ⟨d, by simp [deserializeOne, hg]⟩
    | obj fs => exact ⟨d, by simp [deserializeOne, hg]⟩

theorem deserializeOne_bad (d : JObj) (p : String)
    (hfb : fieldBad d p = true) :
    deserializeOne (none, d) p = (some (decodeErrMsg p), d) := by
  cases hg : goGet (.obj d) (parseSelector p) with
  | none => simp [fieldBad, hg] at hfb
  | some w =>
    cases w with
    | str s =>
      cases hf : fromJSON s with
      | error e => simp [deserializeOne, hg, hf]
      | ok parsed => simp [fieldBad, hg, hf] at hfb
    | null => simp [fieldBad, hg] at hfb
    | bool b => simp [fieldBad, hg] at hfb
    | num lit => simp [fieldBad, hg] at hfb
    | arr xs => simp [fieldBad, hg] at hfb
    | obj fs => simp [fieldBad, hg] at hfb

/-- The error outcome of inflation, characterized: it is exactly the first
field (in the fixed processing order) holding a string whose decoding fails,
mapped to its error message. -/
theorem deserializeSubPaths_fst_eq (doc : JObj) :
    (deserializeSubPaths doc).1
      = (jsonPaths.find? (fieldBad doc)).map decodeErrMsg := by
  rw [deserializeSubPaths_as_steps]
  cases hfb1 : fieldBad doc "attributes.uiStateJSON" with
  | true =>
    rw [deserializeOne_bad doc _ hfb1, deserializeOne_err, deserializeOne_err]
    simp [jsonPaths, List.find?, hfb1]
  | false =>
    obtain ⟨d1, h1⟩ := deserializeOne_good doc _ hfb1
    rw [h1]
    have pr12 : goGet (.obj d1) (parseSelector "attributes.visState")
        = goGet (.obj doc) (parseSelector "attributes.visState") :=
      deserializeOne_preserves_get doc d1 _ _ "attributes" "uiStateJSON"
        "visState" [] [] selector_uiState selector_visState (by decide) h1
    have pr13 : goGet (.obj d1)
        (parseSelector "attributes.kibanaSavedObjectMeta.searchSourceJSON")
        = goGet (.obj doc)
            (parseSelector "attributes.kibanaSavedObjectMeta.searchSourceJSON") :=
      deserializeOne_preserves_get doc d1 _ _ "attributes" "uiStateJSON"
        "kibanaSavedObjectMeta" [] ["searchSourceJSON"] selector_uiState
        selector_searchSource (by decide) h1
    cases hfb2 : fieldBad doc "attributes.visState" with
    | true =>
      have hfb2' : fieldBad d1 "attributes.visState" = true := by
        rw [fieldBad_congr d1 doc _ pr12]; exact hfb2
      rw [deserializeOne_bad d1 _ hfb2', deserializeOne_err]
      simp [jsonPaths, List.find?, hfb1, hfb2]
    | false =>
      have hfb2' : fieldBad d1 "attributes.visState" = false := by
        rw [fieldBad_congr d1 doc _ pr12]; exact hfb2
      obtain ⟨d2, h2⟩ := deserializeOne_good d1 _ hfb2'
      rw [h2]
      have pr23 : goGet (.obj d2)
          (parseSelector "attributes.kibanaSavedObjectMeta.searchSourceJSON")
          = goGet (.obj d1)
              (parseSelector "attributes.kibanaSavedObjectMeta.searchSourceJSON") :=
        deserializeOne_preserves_get d1 d2 _ _ "attributes" "visState"
          "kibanaSavedObjectMeta" [] ["searchSourceJSON"] selector_visState
          selector_searchSource (by decide) h2
      have pr3 : goGet (.obj d2)
          (parseSelector "attributes.kibanaSavedObjectMeta.searchSourceJSON")
          = goGet (.obj doc)
              (parseSelector "attributes.kibanaSavedObjectMeta.searchSourceJSON") :=
        pr23.trans pr13
      cases hfb3 : fieldBad doc "attributes.kibanaSavedObjectMeta.searchSourceJSON" with
      | true =>
        have hfb3' : fieldBad d2 "attributes.kibanaSavedObjectMeta.searchSourceJSON"
            = true := by
          rw [fieldBad_congr d2 doc _ pr3]; exact hfb3
        rw [deserializeOne_bad d2 _ hfb3']
        simp [jsonPaths, List.find?, hfb1, hfb2, hfb3]
      | false =>
        have hfb3' : fieldBad d2 "attributes.kibanaSavedObjectMeta.searchSourceJSON"
            = false := by
          rw [fieldBad_congr d2 doc _ pr3]; exact hfb3
        obtain ⟨d3, h3⟩ := deserializeOne_good d2 _ hfb3'
        rw [h3]
        simp [jsonPaths, List.find?, hfb1, hfb2, hfb3]

/-- C6 counterexample: a document whose `attributes.uiStateJSON` holds valid
JSON and whose `attributes.visState` holds invalid JSON.  Inflation fails
naming `attributes.visState`, but the document has already been changed:
`uiStateJSON` was replaced by its parsed value, refuting "on failure no field
of the document has been replaced". -/
theorem deserialize_not_all_or_nothing_cex :
    (deserializeSubPaths
        [("attributes", .obj [("uiStateJSON", .str "\x7b\x7d"), ("visState", .str "###")])]).1
      = some (decodeErrMsg "attributes.visState")
    ∧ (deserializeSubPaths
        [("attributes", .obj [("uiStateJSON", .str "\x7b\x7d"), ("visState", .str "###")])]).2
      = [("attributes", .obj [("uiStateJSON", .obj []), ("visState", .str "###")])]
    ∧ ([("attributes", JVal.obj [("uiStateJSON", .obj []), ("visState", .str "###")])] : JObj)
      ≠ [("attributes", JVal.obj [("uiStateJSON", .str "\x7b\x7d"), ("visState", .str "###")])] := by
  exact ⟨by decide, by decide, by decide⟩

/-- C6 (amended): if any of the three known sub-document fields holds a string
that is not valid JSON, inflation fails with an error naming the first (in
processing order) offending field path, and the failure propagates to
`DescribeVisualizationSavedObject`; inflation is fail-fast rather than atomic:
fields processed before the offending one may already have been replaced. -/
theorem deserialize_error_names_offending_field (doc : JObj) (p s : String)
    (hp : p ∈ jsonPaths)
    (hg : goGet (.obj doc) (parseSelector p) = some (.str s))
    (hnj : parseJSON s = none) :
    ∃ p', p' ∈ jsonPaths
      ∧ jsonPaths.find? (fieldBad doc) = some p'
      ∧ (deserializeSubPaths doc).1 = some (decodeErrMsg p')
      ∧ strContains (decodeErrMsg p') p' = true
      ∧ ∃ e, DescribeVisualizationSavedObject doc = .error e := by
  have hbad : fieldBad doc p = true := by
    simp [fieldBad, hg, fromJSON, hnj]
  have hfind : (jsonPaths.find? (fieldBad doc)).isSome := by
    rw [List.find?_isSome]
    exact ⟨p, hp, hbad⟩
  obtain ⟨p', hp'⟩ := Option.isSome_iff_exists.mp hfind
  have hmem : p' ∈ jsonPaths := List.mem_of_find?_eq_some hp'
  have hfst : (deserializeSubPaths doc).1 = some (decodeErrMsg p') := by
    rw [deserializeSubPaths_fst_eq, hp']
    rfl
  refine ⟨p', hmem, hp', hfst, ?_, ?_⟩
  · have hcase : p' = "attributes.uiStateJSON" ∨ p' = "attributes.visState"
        ∨ p' = "attributes.kibanaSavedObjectMeta.searchSourceJSON" := by
      simpa [jsonPaths] using hmem
    rcases hcase with rfl | rfl | rfl <;> decide
  · rcases hsplit : deserializeSubPaths doc with ⟨e1, d2⟩
    rw [hsplit] at hfst
    simp only at hfst
    subst hfst
    refine ⟨"failed to deserialize embedded JSON objects: " ++ decodeErrMsg p', ?_⟩
    unfold DescribeVisualizationSavedObject
    rw [hsplit]

/-- C6 witness: a document whose `attributes.visState` holds the invalid JSON
text `###`. -/
theorem deserialize_error_names_offending_field_witness :
    ∃ p', p' ∈ jsonPaths
      ∧ jsonPaths.find?
          (fieldBad [("attributes", .obj [("visState", .str "###")])]) = some p'
      ∧ (deserializeSubPaths [("attributes", .obj [("visState", .str "###")])]).1
          = some (decodeErrMsg p')
      ∧ strContains (decodeErrMsg p') p' = true
      ∧ ∃ e, DescribeVisualizationSavedObject
          [("attributes", .obj [("visState", .str "###")])] = .error e :=
  deserialize_error_names_offending_field
    [("attributes", .obj [("visState", .str "###")])]
    "attributes.visState" "###" (by decide) (by decide) (by decide)

/-! ## Claim C8: mutation of the stored document -/

/-- C8 counterexample: a by-value panel descriptor (as produced by
`DescribeByValueDashboardPanels`, which performs no inflation) whose document
holds a JSON-encoded `attributes.visState`.  Calling the `HasFilters` accessor
inflates — and thus modifies — the stored document after construction. -/
theorem hasFilters_mutates_panel_doc_cex :
    DescribeByValueDashboardPanels (.obj
        [("attributes", .obj [("panelsJSON", .arr
          [.obj [("type", .str "visualization"),
                 ("embeddableConfig", .obj [("savedVis", .obj [])]),
                 ("attributes", .obj [("visState", .str "\x7b\x7d")])]])])])
      = .ok [⟨[("type", .str "visualization"),
               ("embeddableConfig", .obj [("savedVis", .obj [])]),
               ("attributes", .obj [("visState", .str "\x7b\x7d")])],
              "visualization", "by_value"⟩]
    ∧ (VisualizationDescriptor.HasFilters
        ⟨[("type", .str "visualization"),
          ("embeddableConfig", .obj [("savedVis", .obj [])]),
          ("attributes", .obj [("visState", .str "\x7b\x7d")])],
         "visualization", "by_value"⟩).2
      ≠ [("type", .str "visualization"),
         ("embeddableConfig", .obj [("savedVis", .obj [])]),
         ("attributes", .obj [("visState", .str "\x7b\x7d")])] := by
  exact ⟨by decide, by decide⟩

/-- C8 (amended): accessors other than `HasFilters` are pure functions of the
stored document; `HasFilters` re-runs the in-place inflation, so on a
descriptor built by `DescribeVisualizationSavedObject` (whose document was
inflated at construction) it leaves the document unchanged, while on a
by-value panel descriptor (built without inflation) it may modify the stored
document. -/
theorem hasFilters_preserves_inflated_doc (doc : JObj)
    (desc : VisualizationDescriptor)
    (h : DescribeVisualizationSavedObject doc = .ok desc) :
    desc.HasFilters.2 = desc.Doc := by
  rcases hsplit : deserializeSubPaths doc with ⟨e1, d⟩
  unfold DescribeVisualizationSavedObject at h
  rw [hsplit] at h
  cases e1 with
  | some e => simp at h
  | none =>
    cases hlk : lookupField d "type" with
    | none => simp [hlk] at h
    | some w =>
      cases w with
      | str soType =>
        simp only [hlk] at h
        have hdesc : desc = ⟨d, soType, "by_reference"⟩ := by
          cases h
          rfl
        subst hdesc
        have hidem := deserializeSubPaths_idem_aux doc d hsplit
        unfold VisualizationDescriptor.HasFilters
        rw [show (⟨d, soType, "by_reference"⟩ : VisualizationDescriptor).Doc = d
          from rfl, hidem]
        cases hq : queryHit d <;> cases hf : filterHit d <;> simp [hq, hf]
      | null => simp [hlk] at h
      | bool b => simp [hlk] at h
      | num lit => simp [hlk] at h
      | arr xs => simp [hlk] at h
      | obj fs => simp [hlk] at h

/-- C8 witness: a document needing no inflation; `HasFilters` leaves the
constructed descriptor's document unchanged. -/
theorem hasFilters_preserves_inflated_doc_witness :
    (VisualizationDescriptor.HasFilters
        ⟨[("type", .str "visualization")], "visualization", "by_reference"⟩).2
      = (⟨[("type", .str "visualization")], "visualization", "by_reference"⟩ :
          VisualizationDescriptor).Doc :=
  hasFilters_preserves_inflated_doc [("type", .str "visualization")]
    ⟨[("type", .str "visualization")], "visualization", "by_reference"⟩
    (by decide)

end Kbncontent
